import Mathlib

/-!
# Verification of the rcoil request-orchestration library

Shallow embedding of the rcoil sources (`src/rcoil.js`, `src/request.js`,
`src/execution-context.js`, `src/execution-director.js`) together with
theorems settling the specification claims about the tree builder, the
shared execution context and the execution director.

JavaScript objects are embedded as Lean structures, arrays as lists,
exceptions as explicit error values threaded through the result, and the
string-keyed record maps of the execution context as functions into
`Option`.  Mutation is embedded as explicit state passing: every builder
operation returns the new `Rcoil` value paired with the error it threw,
where an error of `some e` means the JavaScript call threw at that point
and the returned state is the state at the moment of the throw.
-/

set_option maxRecDepth 8000

/-- Result of `url.parse` on a url string (node's `url` module, an external
collaborator of the core per the spec).  Absent (`null`) components are
`none`. -/
structure ParsedUrl where
  hostname : Option String
  path : Option String
  hash : Option String
  port : Option String
  protocol : Option String
deriving DecidableEq, Repr

/-- Capability contract for the external url-handling collaborators used by
`request.js`: `validUrl.isUri` and `url.parse`. -/
structure UrlLib where
  isUri : String → Bool
  parse : String → ParsedUrl

/-- A configuration object passed to the HTTP request factories, or the
settings object a `Request` carries for an HTTP request.  A field that the
JavaScript object does not own (`hasOwnProperty` false / `undefined`) is
`none`. -/
structure ConfigObject where
  host : Option String
  path : Option String
  port : Option String
  protocol : Option String
  method : Option String
deriving DecidableEq, Repr

/-- The observable behavior of a request's `onInput` callback, as the
missing Request player consumes it: either it returns a request body
(possibly `null`), or it returns `false`, the explicit cancellation
sentinel. -/
inductive InputOutcome where
  | send : Option String → InputOutcome
  | cancel : InputOutcome
deriving DecidableEq, Repr

/-- The `settings` property of a `Request`: empty at construction,
replaced by `_createHttpRequest` or `_createLambdaRequest`. -/
inductive Settings where
  | empty : Settings
  | http : ConfigObject → Settings
  | lambda : String → String → Settings
deriving DecidableEq, Repr

/-- `Request` from `src/request.js`: `type` is `""`, `"http"` or
`"lambda"`; `inputFunc` models the attached `onInput` callback by its
observable outcome (`none` = no callback attached). -/
structure Request where
  type : String
  name : String
  settings : Settings
  inputFunc : Option InputOutcome
deriving DecidableEq, Repr

/-- `Request.RequestType.HTTP`. -/
def RequestType.HTTP : String := "http"

/-- `Request.RequestType.LAMBDA`. -/
def RequestType.LAMBDA : String := "lambda"

/-- Errors thrown by `request.js` construction paths. -/
inductive RequestError where
  | invalidConfiguration : RequestError
  | invalidUrl : String → RequestError
deriving DecidableEq, Repr

/-- JavaScript `String.prototype.toUpperCase`, embedded as an upper-case
map over the string's characters. -/
def jsToUpperCase (s : String) : String := String.mk (s.data.map Char.toUpper)

/-- `Request.prototype._createHttpRequest` from `src/request.js` lines
230-257.  For an object config it requires the `host`, `path`, `protocol`
and `method` properties and stores the config as the settings; for a url
string it requires `validUrl.isUri` to accept it and builds the settings
from `url.parse`, concatenating path and hash and upper-casing the verb. -/
def createHttpRequest (lib : UrlLib) (httpVerb : String) :
    Sum ConfigObject String → Except RequestError ConfigObject
  | Sum.inl config =>
    if config.host.isNone ∨ config.path.isNone ∨ config.protocol.isNone ∨
        config.method.isNone then
      Except.error RequestError.invalidConfiguration
    else
      Except.ok config
  | Sum.inr urlString =>
    if lib.isUri urlString = false then
      Except.error (RequestError.invalidUrl urlString)
    else
      let parsedUrl := lib.parse urlString
      Except.ok
        { host := parsedUrl.hostname
          path := some ((parsedUrl.path.getD "") ++ (parsedUrl.hash.getD ""))
          port := parsedUrl.port
          protocol := parsedUrl.protocol
          method := some (jsToUpperCase httpVerb) }

/-- `Request.prototype.setHttpRequest`: runs `_createHttpRequest` and
returns the updated request (the JavaScript mutates `this` and returns
`this`). -/
def Request.setHttpRequest (lib : UrlLib) (r : Request) (httpVerb : String)
    (config : Sum ConfigObject String) : Except RequestError Request :=
  (createHttpRequest lib httpVerb config).map fun s =>
    { r with type := RequestType.HTTP, settings := Settings.http s }

/-- `Request.prototype.setGet` (`Request.HttpVerb.GET = "GET"`). -/
def Request.setGet (lib : UrlLib) (r : Request)
    (config : Sum ConfigObject String) : Except RequestError Request :=
  r.setHttpRequest lib "GET" config

/-- `new Request(name)`: empty type and settings, no callbacks. -/
def Request.new (name : String) : Request :=
  { type := "", name := name, settings := Settings.empty, inputFunc := none }

/-- `Request.get(name, config)` from `src/request.js` lines 121-123. -/
def Request.get (lib : UrlLib) (name : String)
    (config : Sum ConfigObject String) : Except RequestError Request :=
  (Request.new name).setGet lib config

/-- `Request.prototype._createLambdaRequest`: an omitted, null or empty
qualifier defaults to `"$LATEST"`. -/
def createLambdaRequest (functionArn : String) (qualifier : Option String) :
    Settings :=
  Settings.lambda functionArn
    (match qualifier with
     | none => "$LATEST"
     | some q => if q = "" then "$LATEST" else q)

/-- `Request.lambda(name, functionArn, qualifier)`. -/
def Request.lambdaRequest (name functionArn : String)
    (qualifier : Option String) : Request :=
  { type := RequestType.LAMBDA, name := name,
    settings := createLambdaRequest functionArn qualifier, inputFunc := none }

/-- A request-group node of the Rcoil tree
(`Rcoil.prototype._createEmptyRequestGroup` shape): id, owned requests,
child groups. -/
inductive RequestGroup where
  | node : String → List Request → List RequestGroup → RequestGroup
deriving Repr

/-- The `id` property of a request group. -/
def RequestGroup.id : RequestGroup → String
  | RequestGroup.node i _ _ => i

/-- The `requests` property of a request group. -/
def RequestGroup.requests : RequestGroup → List Request
  | RequestGroup.node _ rs _ => rs

/-- The `children` property of a request group. -/
def RequestGroup.children : RequestGroup → List RequestGroup
  | RequestGroup.node _ _ cs => cs

/-- `Rcoil.prototype._createEmptyRequestGroup`. -/
def createEmptyRequestGroup (groupId : String) : RequestGroup :=
  RequestGroup.node groupId [] []

mutual

/-- Number of groups in one subtree (the group itself plus every
descendant). -/
def subtreeCount : RequestGroup → Nat
  | RequestGroup.node _ _ cs => 1 + forestCount cs

/-- Number of groups in a forest of subtrees. -/
def forestCount : List RequestGroup → Nat
  | [] => 0
  | t :: ts => subtreeCount t + forestCount ts

end

mutual

/-- `Rcoil.prototype._findRequestGroup` restricted to one subtree: the
depth-first pre-order walk of `_traverseTree` visits a group before its
children (request objects carry no `id` property, so they never match);
returns the first group whose `id` equals `groupId`. -/
def findTree : RequestGroup → String → Option RequestGroup
  | RequestGroup.node i rs cs, groupId =>
    if i = groupId then some (RequestGroup.node i rs cs)
    else findForest cs groupId

/-- `Rcoil.prototype._findRequestGroup` over a forest (the walk of
`_traverseTree` over an array visits each element's subtree in order and
returns the first match). -/
def findForest : List RequestGroup → String → Option RequestGroup
  | [], _ => none
  | t :: ts, groupId =>
    match findTree t groupId with
    | some g => some g
    | none => findForest ts groupId

end

mutual

/-- `push` of a new child group onto the `children` array of the group
object returned by `_findRequestGroup`, i.e. of the first group in
depth-first pre-order whose id is `cur`; the boolean reports whether the
group was found (only the found node is rebuilt). -/
def pushChildTree : RequestGroup → String → RequestGroup →
    RequestGroup × Bool
  | RequestGroup.node i rs cs, cur, g =>
    if i = cur then (RequestGroup.node i rs (cs ++ [g]), true)
    else
      let p := pushChildForest cs cur g
      (RequestGroup.node i rs p.1, p.2)

/-- Forest version of `pushChildTree`: only the first matching subtree is
rebuilt, later siblings are untouched. -/
def pushChildForest : List RequestGroup → String → RequestGroup →
    List RequestGroup × Bool
  | [], _, _ => ([], false)
  | t :: ts, cur, g =>
    let p := pushChildTree t cur g
    if p.2 then (p.1 :: ts, true)
    else
      let q := pushChildForest ts cur g
      (t :: q.1, q.2)

end

mutual

/-- `push` of a request onto the `requests` array of the group object
returned by `_findRequestGroup` (first depth-first pre-order match). -/
def pushRequestTree : RequestGroup → String → Request →
    RequestGroup × Bool
  | RequestGroup.node i rs cs, cur, q =>
    if i = cur then (RequestGroup.node i (rs ++ [q]) cs, true)
    else
      let p := pushRequestForest cs cur q
      (RequestGroup.node i rs p.1, p.2)

/-- Forest version of `pushRequestTree`. -/
def pushRequestForest : List RequestGroup → String → Request →
    List RequestGroup × Bool
  | [], _, _ => ([], false)
  | t :: ts, cur, q =>
    let p := pushRequestTree t cur q
    if p.2 then (p.1 :: ts, true)
    else
      let w := pushRequestForest ts cur q
      (t :: w.1, w.2)

end

/-- The `Rcoil` builder object from `src/rcoil.js`: the tree (`calls`),
the cursor (`_tmpPositionId`, empty string = root) and the running group
counter (`_totalRequestGroups`). -/
structure Rcoil where
  calls : List RequestGroup
  tmpPositionId : String
  totalRequestGroups : Nat

/-- `new Rcoil()`. -/
def Rcoil.new : Rcoil :=
  { calls := [], tmpPositionId := "", totalRequestGroups := 0 }

/-- Exceptions thrown by the builder methods of `src/rcoil.js`:
`duplicateGroup` and the two `addRequest` configuration errors are
explicit `throw new Error(...)` statements; `nullDereference` is the
`TypeError` raised when a method dereferences the `null` returned by
`_findRequestGroup` for a cursor that matches no group in the tree. -/
inductive BuildError where
  | duplicateGroup : String → BuildError
  | addRequestWithoutGroup : BuildError
  | invalidRequestObject : BuildError
  | nullDereference : BuildError
deriving DecidableEq, Repr

/-- An argument passed to `Rcoil.prototype.addRequest`: either an actual
`Request` instance or any other JavaScript value (which fails the
`instanceof Request` test). -/
inductive RcoilValue where
  | req : Request → RcoilValue
  | notRequest : RcoilValue
deriving DecidableEq, Repr

/-- `Rcoil.prototype.startGroup` from `src/rcoil.js` lines 166-180.
Throws if the id already exists anywhere in the tree; otherwise pushes a
new empty group onto the children of the cursor group (or onto the roots
when the cursor is empty), moves the cursor and increments the counter.
A non-empty cursor naming no group in the tree makes the JavaScript
dereference `null`, throwing before any mutation. -/
def Rcoil.startGroup (r : Rcoil) (groupId : String) :
    Rcoil × Option BuildError :=
  if (findForest r.calls groupId).isSome then
    (r, some (BuildError.duplicateGroup groupId))
  else if r.tmpPositionId ≠ "" then
    match findForest r.calls r.tmpPositionId with
    | none => (r, some BuildError.nullDereference)
    | some _ =>
      ({ calls := (pushChildForest r.calls r.tmpPositionId
            (createEmptyRequestGroup groupId)).1,
         tmpPositionId := groupId,
         totalRequestGroups := r.totalRequestGroups + 1 }, none)
  else
    ({ calls := r.calls ++ [createEmptyRequestGroup groupId],
       tmpPositionId := groupId,
       totalRequestGroups := r.totalRequestGroups + 1 }, none)

/-- `Rcoil.prototype.afterGroup` from `src/rcoil.js` lines 190-194: resets
the cursor with no validation and never throws. -/
def Rcoil.afterGroup (r : Rcoil) (groupId : String) : Rcoil :=
  { r with tmpPositionId := groupId }

/-- `Rcoil.prototype.addRequest` from `src/rcoil.js` lines 210-222.
Throws a configuration error when the cursor is empty or the argument is
not a `Request` instance; otherwise pushes onto the `requests` array of
the cursor group, dereferencing `null` when the cursor names no group. -/
def Rcoil.addRequest (r : Rcoil) (v : RcoilValue) :
    Rcoil × Option BuildError :=
  if r.tmpPositionId = "" then
    (r, some BuildError.addRequestWithoutGroup)
  else
    match v with
    | RcoilValue.notRequest => (r, some BuildError.invalidRequestObject)
    | RcoilValue.req q =>
      match findForest r.calls r.tmpPositionId with
      | none => (r, some BuildError.nullDereference)
      | some _ =>
        ({ r with calls := (pushRequestForest r.calls r.tmpPositionId q).1 },
         none)

/-- `Rcoil.prototype.fromTheBeginning`. -/
def Rcoil.fromTheBeginning (r : Rcoil) : Rcoil :=
  { r with tmpPositionId := "" }

/-- `Rcoil.prototype.requestGroupsCount`. -/
def Rcoil.requestGroupsCount (r : Rcoil) : Nat :=
  r.totalRequestGroups

/-- A request record as built by
`ExecutionDirector.prototype._requestStarted`: the config snapshot, the
generated input body and, for HTTP requests, the outgoing headers, url and
method of the client request object.  The `Date.now()` timestamp is real
time, external to the embedding, and is omitted. -/
structure RequestRecord where
  config : Request
  body : Option String
  headers : List (String × String)
  url : Option String
  method : Option String
deriving DecidableEq, Repr

/-- A response record as built by
`ExecutionDirector.prototype._requestDone` /
`ExecutionDirector.prototype._requestCanceled`: a field the JavaScript
object does not carry on a given path is `none` (the canceled record only
carries `endTime` and `isCanceled`).  Timestamps are omitted as above. -/
structure ResponseRecord where
  body : Option String
  isCanceled : Bool
  headers : List (String × String)
  httpVersion : Option String
  method : Option String
  statusCode : Option Nat
  statusMessage : Option String
  err : Option String
deriving DecidableEq, Repr

/-- The response record stored by `_requestCanceled`. -/
def canceledResponse : ResponseRecord :=
  { body := none, isCanceled := true, headers := [], httpVersion := none,
    method := none, statusCode := none, statusMessage := none, err := none }

/-- An element of the `_activeGroups` array of the execution context.  The
array is meant to hold request groups, but
`ExecutionContext.prototype.registerActiveRequest` pushes `Request`
objects into it, so its elements range over both. -/
inductive ActiveEntry where
  | group : RequestGroup → ActiveEntry
  | request : Request → ActiveEntry

/-- The `id` property of an `_activeGroups` element: a `Request` object
owns no `id` property, so reading it yields `undefined` (`none`). -/
def ActiveEntry.entryId : ActiveEntry → Option String
  | ActiveEntry.group g => some g.id
  | ActiveEntry.request _ => none

/-- A JavaScript `for (var i = 0; ...) if (p(a[i])) a.splice(i, 1)` loop:
removing index `i` shifts the array left while `i` still advances, so the
element directly after a removed one is kept without being tested. -/
def spliceRemove {α : Type} (p : α → Bool) : List α → List α
  | [] => []
  | a :: rest =>
    if p a then
      match rest with
      | [] => []
      | b :: rest2 => b :: spliceRemove p rest2
    else a :: spliceRemove p rest

/-- `ExecutionContext` from `src/execution-context.js`.  The rwlock
synchronization is invisible in this sequential embedding (every lock
callback runs synchronously); the two record stores are the nested
string-keyed objects `_requests` and `_responses`. -/
structure ExecutionContext where
  activeGroups : List ActiveEntry
  activeRequests : List Request
  requests : String → Option (String → Option RequestRecord)
  responses : String → Option (String → Option ResponseRecord)

/-- `new ExecutionContext()`. -/
def ExecutionContext.new : ExecutionContext :=
  { activeGroups := [], activeRequests := [],
    requests := fun _ => none, responses := fun _ => none }

/-- `ExecutionContext.prototype.registerActiveGroup`. -/
def ExecutionContext.registerActiveGroup (c : ExecutionContext)
    (group : RequestGroup) : ExecutionContext :=
  { c with activeGroups := c.activeGroups ++ [ActiveEntry.group group] }

/-- `ExecutionContext.prototype.unregisterActiveGroup`: the loop compares
each element's `id` with the group's id and splices matches out
(a `Request` element's `id` is `undefined` and never matches). -/
def ExecutionContext.unregisterActiveGroup (c : ExecutionContext)
    (group : RequestGroup) : ExecutionContext :=
  { c with activeGroups :=
      spliceRemove (fun e => e.entryId = some group.id) c.activeGroups }

/-- `ExecutionContext.prototype.getActiveGroup`: the loop keeps
overwriting its result variable, so the last matching element wins. -/
def ExecutionContext.getActiveGroup (c : ExecutionContext)
    (groupId : String) : Option ActiveEntry :=
  c.activeGroups.foldl
    (fun acc e => if e.entryId = some groupId then some e else acc) none

/-- `ExecutionContext.prototype.getActiveGroups` (deep copy snapshot). -/
def ExecutionContext.getActiveGroups (c : ExecutionContext) :
    List ActiveEntry :=
  c.activeGroups

/-- `ExecutionContext.prototype.registerActiveRequest` from
`src/execution-context.js` lines 166-171: the body pushes the request
onto `this._activeGroups`, not `this._activeRequests`. -/
def ExecutionContext.registerActiveRequest (c : ExecutionContext)
    (requestConfig : Request) : ExecutionContext :=
  { c with activeGroups := c.activeGroups ++ [ActiveEntry.request requestConfig] }

/-- `ExecutionContext.prototype.unregisterActiveRequests`: splices out of
`_activeRequests` the entries whose `name` equals the argument's name. -/
def ExecutionContext.unregisterActiveRequests (c : ExecutionContext)
    (requestConfig : Request) : ExecutionContext :=
  { c with activeRequests :=
      spliceRemove (fun r => r.name = requestConfig.name) c.activeRequests }

/-- `ExecutionContext.prototype.getActiveRequest` from
`src/execution-context.js` lines 198-211: `for (var req in
this._activeRequests)` binds `req` to the array indices (strings), whose
`name` property is `undefined`; `undefined` never equals the string
`requestName`, so the loop never assigns and the initial `null` is
returned, whatever the list holds. -/
def ExecutionContext.getActiveRequest (_c : ExecutionContext)
    (_requestName : String) : Option Request :=
  none

/-- `ExecutionContext.prototype.getActiveRequests` (deep copy
snapshot). -/
def ExecutionContext.getActiveRequests (c : ExecutionContext) :
    List Request :=
  c.activeRequests

/-- `ExecutionContext.prototype.requestData`: `null` unless both the
group key and the request key are present. -/
def ExecutionContext.requestData (c : ExecutionContext)
    (groupId requestName : String) : Option RequestRecord :=
  match c.requests groupId with
  | none => none
  | some m => m requestName

/-- `ExecutionContext.prototype.setRequestData`: creates the group-level
object on first write, then overwrites the request-name key. -/
def ExecutionContext.setRequestData (c : ExecutionContext)
    (groupId requestName : String) (rd : RequestRecord) : ExecutionContext :=
  { c with requests := fun g =>
      if g = groupId then
        let m := (c.requests groupId).getD (fun _ => none)
        some (fun n => if n = requestName then some rd else m n)
      else c.requests g }

/-- `ExecutionContext.prototype.responseData`. -/
def ExecutionContext.responseData (c : ExecutionContext)
    (groupId requestName : String) : Option ResponseRecord :=
  match c.responses groupId with
  | none => none
  | some m => m requestName

/-- `ExecutionContext.prototype.setResponseData`. -/
def ExecutionContext.setResponseData (c : ExecutionContext)
    (groupId requestName : String) (rd : ResponseRecord) : ExecutionContext :=
  { c with responses := fun g =>
      if g = groupId then
        let m := (c.responses groupId).getD (fun _ => none)
        some (fun n => if n = requestName then some rd else m n)
      else c.responses g }

/-- The request record `_requestStarted` builds for a request and its
generated input (the HTTP-only fields of the outgoing client request are
left empty here; they are read off the external transport handle). -/
def mkRequestRecord (requestConfig : Request) (input : Option String) :
    RequestRecord :=
  { config := requestConfig, body := input, headers := [], url := none,
    method := none }

/-- The response record `_requestDone` builds from the transport output
(non-canceled path; the kind-specific response fields are external
transport data and are left empty). -/
def mkResponseRecord (output : Option String) : ResponseRecord :=
  { body := output, isCanceled := false, headers := [], httpVersion := none,
    method := none, statusCode := none, statusMessage := none, err := none }

/-- State of one `ExecutionDirector` run: the director's fields
(`_totalGroups`, `_tmpGroupsCounter`, `_aborted`, whether `start` received
a non-null callback) and its execution context, plus the set of started
group players whose `end` event is still pending (`frontier`) and the
observable event history the claims speak about. -/
structure DirectorRun where
  ctx : ExecutionContext
  frontier : List RequestGroup
  totalGroups : Nat
  counter : Nat
  aborted : Bool
  hasCallback : Bool
  groupEndEvents : List String
  requestEndEvents : List (String × String)
  abortEvents : Nat
  endCalls : Nat

/-- `ExecutionDirector.prototype.start` from `src/execution-director.js`
lines 355-366: captures `requestGroupsCount()` as `_totalGroups`, resets
the counter, stores the callback and launches a group player per root
group. -/
def directorStart (r : Rcoil) (hasCb : Bool) : DirectorRun :=
  { ctx := ExecutionContext.new, frontier := r.calls,
    totalGroups := r.requestGroupsCount, counter := 0, aborted := false,
    hasCallback := hasCb, groupEndEvents := [], requestEndEvents := [],
    abortEvents := 0, endCalls := 0 }

/-- `ExecutionDirector.prototype._requestGroupDone` from
`src/execution-director.js` lines 207-228, processing the `end` event of
the player of `g`; `rest` is the frontier with that player removed.
The counter is incremented first; `_isAborted` then emits `abort` when
`getActiveRequests()` is empty and stops (no `groupEnd`, no child
players); otherwise `groupEnd` is emitted, a player is started per child,
and the completion callback runs when the group is a leaf and the counter
has reached `_totalGroups`. -/
def handleGroupDone (s : DirectorRun) (g : RequestGroup)
    (rest : List RequestGroup) : DirectorRun :=
  let ctx1 := s.ctx.unregisterActiveGroup g
  let counter1 := s.counter + 1
  if s.aborted then
    let s1 := { s with ctx := ctx1, counter := counter1, frontier := rest }
    if (ctx1.getActiveRequests).length = 0 then
      { s1 with abortEvents := s.abortEvents + 1 }
    else
      s1
  else
    let frontier1 := rest ++ g.children
    let ends1 := s.groupEndEvents ++ [g.id]
    let s1 : DirectorRun :=
      { s with ctx := ctx1, counter := counter1, frontier := frontier1, groupEndEvents := ends1 }
    if g.children.length = 0 ∧ counter1 = s.totalGroups then
      if s.hasCallback then { s1 with endCalls := s1.endCalls + 1 } else s1
    else s1

/-- An event delivered to the director by the group/request players:
the `end` of the frontier player at index `i`, the request lifecycle
events, or the user calling `abort()`. -/
inductive RunEvent where
  | groupDone : Nat → RunEvent
  | reqStarted : RequestGroup → Request → Option String → RunEvent
  | reqDone : RequestGroup → Request → Option String → RunEvent
  | reqCanceled : RequestGroup → Request → RunEvent
  | abortCalled : RunEvent

/-- One director step.  `groupDone i` is valid only for an index into the
current frontier.  `reqStarted` runs `_requestStarted` (register the
active request, store the request record); `reqDone` runs `_requestDone`
(unregister, store the response record, emit `requestEnd`); `reqCanceled`
runs `_requestCanceled` (unregister, store the canceled response record,
emit `requestEnd`); `abortCalled` runs `abort()` (sets the flag and
nothing else). -/
def stepRun (s : DirectorRun) : RunEvent → Option DirectorRun
  | RunEvent.groupDone i =>
    match s.frontier.get? i with
    | none => none
    | some g => some (handleGroupDone s g (s.frontier.eraseIdx i))
  | RunEvent.reqStarted g r input =>
    let ctx1 :=
      (s.ctx.registerActiveRequest r).setRequestData g.id r.name
        (mkRequestRecord r input)
    some { s with ctx := ctx1 }
  | RunEvent.reqDone g r output =>
    let ctx1 :=
      (s.ctx.unregisterActiveRequests r).setResponseData g.id r.name
        (mkResponseRecord output)
    let ends1 := s.requestEndEvents ++ [(g.id, r.name)]
    some { s with ctx := ctx1, requestEndEvents := ends1 }
  | RunEvent.reqCanceled g r =>
    let ctx1 :=
      (s.ctx.unregisterActiveRequests r).setResponseData g.id r.name
        canceledResponse
    let ends1 := s.requestEndEvents ++ [(g.id, r.name)]
    some { s with ctx := ctx1, requestEndEvents := ends1 }
  | RunEvent.abortCalled =>
    some { s with aborted := true }

/-- Folds a list of events through `stepRun`, failing if any event is
invalid in its state. -/
def runEvents (s : DirectorRun) : List RunEvent → Option DirectorRun
  | [] => some s
  | e :: es =>
    match stepRun s e with
    | none => none
    | some s1 => runEvents s1 es

/-- Whether a trace contains a call to `abort()`. -/
def hasAbort : List RunEvent → Bool
  | [] => false
  | RunEvent.abortCalled :: _ => true
  | _ :: es => hasAbort es

/-- Whether an event completes a request (the `requestEnd` or
`requestCancel` player event). -/
def completesRequest : RunEvent → Bool
  | RunEvent.reqDone _ _ _ => true
  | RunEvent.reqCanceled _ _ => true
  | _ => false

/-- Modelled from the spec: the sources do not include `players.js`
(`RequestGroupPlayer` / `RequestPlayer`), only its callers; per spec
section 4.3 the Request Runner invokes the input callback and, when it
signals "do not send", dispatches no transport call and raises the cancel
completion, while otherwise it dispatches the transport exactly once
between its start and completion events.  The returned pair is the event
sequence the player delivers to the director for one request together
with the number of transport dispatches it performs. -/
def requestPlayerEvents (g : RequestGroup) (r : Request)
    (transportOutput : Option String) : List RunEvent × Nat :=
  match r.inputFunc with
  | some InputOutcome.cancel => ([RunEvent.reqCanceled g r], 0)
  | some (InputOutcome.send body) =>
    ([RunEvent.reqStarted g r body, RunEvent.reqDone g r transportOutput], 1)
  | none =>
    ([RunEvent.reqStarted g r none, RunEvent.reqDone g r transportOutput], 1)

/-- A call to one of the four builder methods, with its argument. -/
inductive BuilderOp where
  | startGroup : String → BuilderOp
  | afterGroup : String → BuilderOp
  | addRequest : RcoilValue → BuilderOp
  | fromTheBeginning : BuilderOp

/-- Applies one builder call; a call that throws leaves the builder in
the state it had at the throw (which for every throwing path of
`src/rcoil.js` is the entry state). -/
def applyOp (r : Rcoil) : BuilderOp → Rcoil
  | BuilderOp.startGroup gid => (r.startGroup gid).1
  | BuilderOp.afterGroup gid => r.afterGroup gid
  | BuilderOp.addRequest v => (r.addRequest v).1
  | BuilderOp.fromTheBeginning => r.fromTheBeginning

/-- The builder state after a sequence of calls on `new Rcoil()`: the
"built trees" the spec's claims quantify over. -/
def buildOps (ops : List BuilderOp) : Rcoil :=
  ops.foldl applyOp Rcoil.new

/-- A sequence of `setResponseData` writes, applied in order. -/
def applyResponseWrites (c : ExecutionContext) :
    List (String × String × ResponseRecord) → ExecutionContext
  | [] => c
  | w :: ws => applyResponseWrites (c.setResponseData w.1 w.2.1 w.2.2) ws

/-- A sequence of `setRequestData` writes, applied in order. -/
def applyRequestWrites (c : ExecutionContext) :
    List (String × String × RequestRecord) → ExecutionContext
  | [] => c
  | w :: ws => applyRequestWrites (c.setRequestData w.1 w.2.1 w.2.2) ws

/-- The builder keeps its `_totalRequestGroups` counter equal to the
number of groups in the tree. -/
def builderCountInv (r : Rcoil) : Prop :=
  r.totalRequestGroups = forestCount r.calls

/-- Invariant of an abort-free directed run started with a callback:
the flag is down, processed plus pending groups add up to `_totalGroups`,
and the callback has fired exactly when the counter has reached the
total. -/
def DirInv (s : DirectorRun) : Prop :=
  s.aborted = false ∧ s.hasCallback = true ∧ s.totalGroups ≠ 0 ∧
  s.counter + forestCount s.frontier = s.totalGroups ∧
  s.endCalls = (if s.counter = s.totalGroups then 1 else 0)

/-- `Request.prototype.onInput`: attaches the input callback (modelled by
its outcome) and returns the request for chaining. -/
def Request.onInput (r : Request) (f : InputOutcome) : Request :=
  { r with inputFunc := some f }

/-- The request used to exercise the active-request registration path. -/
def c5request : Request := Request.lambdaRequest "r1" "fn" none

/-- The builder whose cursor was reset to a nonexistent group id. -/
def c9coil : Rcoil := (buildOps [BuilderOp.startGroup "g1"]).afterGroup "missing"

/-- The request added after the cursor was reset to a missing group. -/
def c9request : Request := Request.lambdaRequest "r9" "fn" none

/-- The url string of the spec's GET example. -/
def apiUrl : String := "http://api.com/test"

/-- What node's `url.parse` returns for `"http://api.com/test"`. -/
def apiParsed : ParsedUrl :=
  { hostname := some "api.com", path := some "/test", hash := none,
    port := none, protocol := some "http:" }

/-- The settings the GET factory is expected to produce for `apiUrl`. -/
def apiSettings : ConfigObject :=
  { host := some "api.com", path := some "/test", port := none,
    protocol := some "http:", method := some "GET" }

/-- The concrete url library used to witness C8: it accepts exactly
`apiUrl` and parses it the way node's `url.parse` does. -/
def apiLib : UrlLib :=
  { isUri := fun s => s == apiUrl, parse := fun _ => apiParsed }

/-- The group and the cancellation-signalling request used to witness
C6. -/
def c6group : RequestGroup := RequestGroup.node "g6" [] []

/-- The request whose `onInput` callback returns the cancellation
sentinel. -/
def c6request : Request :=
  (Request.lambdaRequest "r6" "fn" none).onInput InputOutcome.cancel

/-- The request left in flight when `abort()` is called. -/
def c2request : Request := Request.lambdaRequest "r1" "arn" none

/-- The first root group (owns the in-flight request). -/
def c2group1 : RequestGroup := RequestGroup.node "g1" [c2request] []

/-- The second root group (empty; its end event arrives after the
abort). -/
def c2group2 : RequestGroup := RequestGroup.node "g2" [] []

/-- The two-root tree built for the abort run. -/
def c2coil : Rcoil :=
  buildOps [BuilderOp.startGroup "g1",
    BuilderOp.addRequest (RcoilValue.req c2request),
    BuilderOp.fromTheBeginning, BuilderOp.startGroup "g2"]

/-- The event trace: the request of `g1` starts; `abort()` is called; the
end event of `g2` arrives.  No request-completion event occurs. -/
def c2events : List RunEvent :=
  [RunEvent.reqStarted c2group1 c2request none, RunEvent.abortCalled,
    RunEvent.groupDone 1]

theorem forestCount_append (a b : List RequestGroup) :
    forestCount (a ++ b) = forestCount a + forestCount b := by
  induction a with
  | nil => simp [forestCount]
  | cons t ts ih => simp [forestCount, ih]; ring

theorem subtreeCount_node (i : String) (rs : List Request)
    (cs : List RequestGroup) :
    subtreeCount (RequestGroup.node i rs cs) = 1 + forestCount cs := by
  rw [subtreeCount]

theorem subtreeCount_pos (t : RequestGroup) : 0 < subtreeCount t := by
  cases t with
  | node i rs cs => rw [subtreeCount_node]; omega

theorem forestCount_eq_zero (ts : List RequestGroup) :
    forestCount ts = 0 ↔ ts = [] := by
  cases ts with
  | nil => simp [forestCount]
  | cons t ts =>
    simp only [forestCount]
    have := subtreeCount_pos t
    constructor
    · intro h; omega
    · intro h; exact absurd h (List.cons_ne_nil t ts)

theorem forestCount_erase_get (ts : List RequestGroup) (i : Nat)
    (g : RequestGroup) (h : ts.get? i = some g) :
    subtreeCount g + forestCount (ts.eraseIdx i) = forestCount ts := by
  induction ts generalizing i with
  | nil => simp at h
  | cons t ts ih =>
    cases i with
    | zero =>
      simp only [List.get?] at h
      cases h
      simp [List.eraseIdx, forestCount]
    | succ n =>
      simp only [List.get?] at h
      simp only [List.eraseIdx, forestCount]
      have := ih n h
      omega

theorem findForest_append (a b : List RequestGroup) (gid : String) :
    findForest (a ++ b) gid =
      match findForest a gid with
      | some g => some g
      | none => findForest b gid := by
  induction a with
  | nil => simp [findForest]
  | cons t ts ih =>
    rw [List.cons_append, findForest, findForest]
    cases findTree t gid with
    | some g => rfl
    | none => simpa using ih

mutual

theorem pushChildTree_not_found : ∀ (t : RequestGroup) (cur : String)
    (g : RequestGroup), (pushChildTree t cur g).2 = false →
    (pushChildTree t cur g).1 = t
  | RequestGroup.node i rs cs, cur, g, h => by
    rw [pushChildTree] at h ⊢
    by_cases hic : i = cur
    · simp [hic] at h
    · simp only [if_neg hic] at h ⊢
      rw [pushChildForest_not_found cs cur g h]

theorem pushChildForest_not_found : ∀ (ts : List RequestGroup) (cur : String)
    (g : RequestGroup), (pushChildForest ts cur g).2 = false →
    (pushChildForest ts cur g).1 = ts
  | [], _, _, _ => rfl
  | t :: ts, cur, g, h => by
    rw [pushChildForest] at h ⊢
    by_cases hf : (pushChildTree t cur g).2
    · simp [hf] at h
    · simp only [Bool.not_eq_true] at hf
      simp only [hf, Bool.false_eq_true, if_false] at h ⊢
      rw [pushChildForest_not_found ts cur g h]

end

mutual

theorem pushChildTree_found : ∀ (t : RequestGroup) (cur : String)
    (g : RequestGroup), (pushChildTree t cur g).2 = (findTree t cur).isSome
  | RequestGroup.node i rs cs, cur, g => by
    rw [pushChildTree, findTree]
    by_cases hic : i = cur
    · simp [hic]
    · simp only [if_neg hic]
      exact pushChildForest_found cs cur g

theorem pushChildForest_found : ∀ (ts : List RequestGroup) (cur : String)
    (g : RequestGroup), (pushChildForest ts cur g).2 = (findForest ts cur).isSome
  | [], _, _ => rfl
  | t :: ts, cur, g => by
    rw [pushChildForest, findForest]
    by_cases hf : (pushChildTree t cur g).2
    · simp only [hf, if_true]
      rw [pushChildTree_found t cur g] at hf
      cases hft : findTree t cur with
      | some g0 => simp
      | none => rw [hft] at hf; simp at hf
    · simp only [Bool.not_eq_true] at hf
      simp only [hf, Bool.false_eq_true, if_false]
      have hft : findTree t cur = none := by
        rw [pushChildTree_found t cur g] at hf
        cases hx : findTree t cur with
        | some g0 => rw [hx] at hf; simp at hf
        | none => rfl
      rw [hft]
      exact pushChildForest_found ts cur g

end

mutual

theorem subtreeCount_pushChildTree : ∀ (t : RequestGroup) (cur : String)
    (g : RequestGroup), subtreeCount (pushChildTree t cur g).1 =
      subtreeCount t + (if (pushChildTree t cur g).2 then subtreeCount g else 0)
  | RequestGroup.node i rs cs, cur, g => by
    rw [pushChildTree]
    by_cases hic : i = cur
    · subst hic
      rw [if_pos rfl]
      simp [subtreeCount_node, forestCount_append, forestCount]
      ring
    · simp only [if_neg hic]
      rw [subtreeCount_node, subtreeCount_node]
      have := forestCount_pushChildForest cs cur g
      omega

theorem forestCount_pushChildForest : ∀ (ts : List RequestGroup) (cur : String)
    (g : RequestGroup), forestCount (pushChildForest ts cur g).1 =
      forestCount ts + (if (pushChildForest ts cur g).2 then subtreeCount g else 0)
  | [], _, _ => by simp [pushChildForest, forestCount]
  | t :: ts, cur, g => by
    rw [pushChildForest]
    by_cases hf : (pushChildTree t cur g).2
    · simp only [hf, if_true, forestCount]
      have := subtreeCount_pushChildTree t cur g
      rw [hf] at this
      simp at this
      omega
    · simp only [Bool.not_eq_true] at hf
      simp only [hf, Bool.false_eq_true, if_false, forestCount]
      have := forestCount_pushChildForest ts cur g
      omega

end

mutual

theorem findTree_pushChildTree_fresh : ∀ (t : RequestGroup) (cur gid : String)
    (h : findTree t gid = none),
    findTree (pushChildTree t cur (createEmptyRequestGroup gid)).1 gid =
      (if (pushChildTree t cur (createEmptyRequestGroup gid)).2 then
        some (createEmptyRequestGroup gid) else none)
  | RequestGroup.node i rs cs, cur, gid, h => by
    rw [findTree] at h
    by_cases hig : i = gid
    · simp [hig] at h
    · simp only [if_neg hig] at h
      rw [pushChildTree]
      by_cases hic : i = cur
      · subst hic
        rw [if_pos rfl]
        simp only []
        rw [findTree]
        simp only [if_neg hig]
        rw [findForest_append, h]
        simp [findForest, findTree, createEmptyRequestGroup]
      · simp only [if_neg hic]
        rw [findTree]
        simp only [if_neg hig]
        exact findForest_pushChildForest_fresh cs cur gid h

theorem findForest_pushChildForest_fresh : ∀ (ts : List RequestGroup)
    (cur gid : String) (h : findForest ts gid = none),
    findForest (pushChildForest ts cur (createEmptyRequestGroup gid)).1 gid =
      (if (pushChildForest ts cur (createEmptyRequestGroup gid)).2 then
        some (createEmptyRequestGroup gid) else none)
  | [], _, _, _ => rfl
  | t :: ts, cur, gid, h => by
    rw [findForest] at h
    have hsplit : findTree t gid = none ∧ findForest ts gid = none := by
      cases hx : findTree t gid with
      | some g0 => rw [hx] at h; simp at h
      | none => rw [hx] at h; exact ⟨rfl, h⟩
    rw [pushChildForest]
    by_cases hf : (pushChildTree t cur (createEmptyRequestGroup gid)).2
    · simp only [hf, if_true, findForest]
      have := findTree_pushChildTree_fresh t cur gid hsplit.1
      rw [hf, if_pos rfl] at this
      rw [this]
    · simp only [Bool.not_eq_true] at hf
      simp only [hf, Bool.false_eq_true, if_false, findForest]
      rw [hsplit.1]
      exact findForest_pushChildForest_fresh ts cur gid hsplit.2

end

mutual

theorem pushRequestTree_not_found : ∀ (t : RequestGroup) (cur : String)
    (q : Request), (pushRequestTree t cur q).2 = false →
    (pushRequestTree t cur q).1 = t
  | RequestGroup.node i rs cs, cur, q, h => by
    rw [pushRequestTree] at h ⊢
    by_cases hic : i = cur
    · simp [hic] at h
    · simp only [if_neg hic] at h ⊢
      rw [pushRequestForest_not_found cs cur q h]

theorem pushRequestForest_not_found : ∀ (ts : List RequestGroup)
    (cur : String) (q : Request), (pushRequestForest ts cur q).2 = false →
    (pushRequestForest ts cur q).1 = ts
  | [], _, _, _ => rfl
  | t :: ts, cur, q, h => by
    rw [pushRequestForest] at h ⊢
    by_cases hf : (pushRequestTree t cur q).2
    · simp [hf] at h
    · simp only [Bool.not_eq_true] at hf
      simp only [hf, Bool.false_eq_true, if_false] at h ⊢
      rw [pushRequestForest_not_found ts cur q h]

end

mutual

theorem pushRequestTree_found : ∀ (t : RequestGroup) (cur : String)
    (q : Request), (pushRequestTree t cur q).2 = (findTree t cur).isSome
  | RequestGroup.node i rs cs, cur, q => by
    rw [pushRequestTree, findTree]
    by_cases hic : i = cur
    · simp [hic]
    · simp only [if_neg hic]
      exact pushRequestForest_found cs cur q

theorem pushRequestForest_found : ∀ (ts : List RequestGroup) (cur : String)
    (q : Request), (pushRequestForest ts cur q).2 = (findForest ts cur).isSome
  | [], _, _ => rfl
  | t :: ts, cur, q => by
    rw [pushRequestForest, findForest]
    by_cases hf : (pushRequestTree t cur q).2
    · simp only [hf, if_true]
      rw [pushRequestTree_found t cur q] at hf
      cases hft : findTree t cur with
      | some g0 => simp
      | none => rw [hft] at hf; simp at hf
    · simp only [Bool.not_eq_true] at hf
      simp only [hf, Bool.false_eq_true, if_false]
      have hft : findTree t cur = none := by
        rw [pushRequestTree_found t cur q] at hf
        cases hx : findTree t cur with
        | some g0 => rw [hx] at hf; simp at hf
        | none => rfl
      rw [hft]
      exact pushRequestForest_found ts cur q

end

mutual

theorem subtreeCount_pushRequestTree : ∀ (t : RequestGroup) (cur : String)
    (q : Request), subtreeCount (pushRequestTree t cur q).1 = subtreeCount t
  | RequestGroup.node i rs cs, cur, q => by
    rw [pushRequestTree]
    by_cases hic : i = cur
    · subst hic
      rw [if_pos rfl]
      simp [subtreeCount_node]
    · simp only [if_neg hic]
      rw [subtreeCount_node, subtreeCount_node]
      rw [forestCount_pushRequestForest cs cur q]

theorem forestCount_pushRequestForest : ∀ (ts : List RequestGroup)
    (cur : String) (q : Request),
    forestCount (pushRequestForest ts cur q).1 = forestCount ts
  | [], _, _ => rfl
  | t :: ts, cur, q => by
    rw [pushRequestForest]
    by_cases hf : (pushRequestTree t cur q).2
    · simp only [hf, if_true, forestCount]
      rw [subtreeCount_pushRequestTree t cur q]
    · simp only [Bool.not_eq_true] at hf
      simp only [hf, Bool.false_eq_true, if_false, forestCount]
      rw [forestCount_pushRequestForest ts cur q]

end

mutual

theorem findTree_pushRequestTree : ∀ (t : RequestGroup) (cur : String)
    (q : Request) (i : String) (rs : List Request) (cs : List RequestGroup),
    findTree t cur = some (RequestGroup.node i rs cs) →
    findTree (pushRequestTree t cur q).1 cur =
      some (RequestGroup.node i (rs ++ [q]) cs)
  | RequestGroup.node j rs0 cs0, cur, q, i, rs, cs, h => by
    rw [findTree] at h
    rw [pushRequestTree]
    by_cases hjc : j = cur
    · subst hjc
      rw [if_pos rfl] at h
      cases h
      rw [if_pos rfl]
      simp only []
      rw [findTree]
      simp [if_pos rfl]
    · simp only [if_neg hjc] at h
      simp only [if_neg hjc]
      rw [findTree]
      simp only [if_neg hjc]
      exact findForest_pushRequestForest cs0 cur q i rs cs h

theorem findForest_pushRequestForest : ∀ (ts : List RequestGroup)
    (cur : String) (q : Request) (i : String) (rs : List Request)
    (cs : List RequestGroup),
    findForest ts cur = some (RequestGroup.node i rs cs) →
    findForest (pushRequestForest ts cur q).1 cur =
      some (RequestGroup.node i (rs ++ [q]) cs)
  | [], _, _, _, _, _, h => by simp [findForest] at h
  | t :: ts, cur, q, i, rs, cs, h => by
    rw [findForest] at h
    rw [pushRequestForest]
    by_cases hf : (pushRequestTree t cur q).2
    · simp only [hf, if_true, findForest]
      have hft : ∃ g0, findTree t cur = some g0 := by
        rw [pushRequestTree_found t cur q] at hf
        cases hx : findTree t cur with
        | some g0 => exact ⟨g0, rfl⟩
        | none => rw [hx] at hf; simp at hf
      obtain ⟨g0, hg0⟩ := hft
      rw [hg0] at h
      simp only [] at h
      cases h
      rw [findTree_pushRequestTree t cur q i rs cs hg0]
    · simp only [Bool.not_eq_true] at hf
      have hft : findTree t cur = none := by
        rw [pushRequestTree_found t cur q] at hf
        cases hx : findTree t cur with
        | some g0 => rw [hx] at hf; simp at hf
        | none => rfl
      rw [hft] at h
      simp only [hf, Bool.false_eq_true, if_false, findForest]
      rw [hft]
      exact findForest_pushRequestForest ts cur q i rs cs h

end

theorem responseData_set_same (c : ExecutionContext) (g n : String)
    (rec : ResponseRecord) :
    (c.setResponseData g n rec).responseData g n = some rec := by
  simp [ExecutionContext.setResponseData, ExecutionContext.responseData]

theorem responseData_set_other (c : ExecutionContext) (g' n' g n : String)
    (rec : ResponseRecord) (h : ¬(g' = g ∧ n' = n)) :
    (c.setResponseData g' n' rec).responseData g n = c.responseData g n := by
  simp only [ExecutionContext.setResponseData, ExecutionContext.responseData]
  by_cases hg : g = g'
  · subst hg
    have hn : ¬n = n' := fun hx => h ⟨rfl, hx.symm⟩
    cases hc : c.responses g with
    | none => simp [hc, hn, Option.getD]
    | some m => simp [hc, hn, Option.getD]
  · cases hc : c.responses g with
    | none => simp [hc, hg]
    | some m => simp [hc, hg]

theorem requestData_set_same (c : ExecutionContext) (g n : String)
    (rec : RequestRecord) :
    (c.setRequestData g n rec).requestData g n = some rec := by
  simp [ExecutionContext.setRequestData, ExecutionContext.requestData]

theorem requestData_set_other (c : ExecutionContext) (g' n' g n : String)
    (rec : RequestRecord) (h : ¬(g' = g ∧ n' = n)) :
    (c.setRequestData g' n' rec).requestData g n = c.requestData g n := by
  simp only [ExecutionContext.setRequestData, ExecutionContext.requestData]
  by_cases hg : g = g'
  · subst hg
    have hn : ¬n = n' := fun hx => h ⟨rfl, hx.symm⟩
    cases hc : c.requests g with
    | none => simp [hc, hn, Option.getD]
    | some m => simp [hc, hn, Option.getD]
  · cases hc : c.requests g with
    | none => simp [hc, hg]
    | some m => simp [hc, hg]

theorem applyResponseWrites_miss (ws : List (String × String × ResponseRecord))
    (c : ExecutionContext) (g n : String)
    (h : ∀ w ∈ ws, ¬(w.1 = g ∧ w.2.1 = n)) :
    (applyResponseWrites c ws).responseData g n = c.responseData g n := by
  induction ws generalizing c with
  | nil => rfl
  | cons w ws ih =>
    rw [applyResponseWrites]
    rw [ih _ (fun x hx => h x (List.mem_cons_of_mem w hx))]
    exact responseData_set_other c w.1 w.2.1 g n w.2.2 (h w (List.mem_cons_self w ws))

theorem applyRequestWrites_miss (ws : List (String × String × RequestRecord))
    (c : ExecutionContext) (g n : String)
    (h : ∀ w ∈ ws, ¬(w.1 = g ∧ w.2.1 = n)) :
    (applyRequestWrites c ws).requestData g n = c.requestData g n := by
  induction ws generalizing c with
  | nil => rfl
  | cons w ws ih =>
    rw [applyRequestWrites]
    rw [ih _ (fun x hx => h x (List.mem_cons_of_mem w hx))]
    exact requestData_set_other c w.1 w.2.1 g n w.2.2 (h w (List.mem_cons_self w ws))

theorem subtreeCount_empty (gid : String) :
    subtreeCount (createEmptyRequestGroup gid) = 1 := by
  simp [createEmptyRequestGroup, subtreeCount_node, forestCount]

theorem applyOp_count (r : Rcoil) (op : BuilderOp)
    (h : builderCountInv r) : builderCountInv (applyOp r op) := by
  cases op with
  | startGroup gid =>
    show builderCountInv (r.startGroup gid).1
    unfold Rcoil.startGroup
    split
    · exact h
    · split
      · split
        · exact h
        · next g0 heq =>
          show r.totalRequestGroups + 1 = forestCount
            (pushChildForest r.calls r.tmpPositionId
              (createEmptyRequestGroup gid)).1
          rw [forestCount_pushChildForest, pushChildForest_found, heq]
          simp only [Option.isSome_some, if_true]
          rw [h, subtreeCount_empty]
      · show r.totalRequestGroups + 1 =
          forestCount (r.calls ++ [createEmptyRequestGroup gid])
        rw [forestCount_append, h]
        have h1 := subtreeCount_empty gid
        simp only [forestCount]
        omega
  | afterGroup gid => exact h
  | addRequest v =>
    show builderCountInv (r.addRequest v).1
    unfold Rcoil.addRequest
    split
    · exact h
    · split
      · exact h
      · split
        · exact h
        · next q heq =>
          show r.totalRequestGroups = forestCount
            (pushRequestForest r.calls r.tmpPositionId _).1
          rw [forestCount_pushRequestForest]
          exact h
  | fromTheBeginning => exact h

theorem buildOps_count (ops : List BuilderOp) :
    builderCountInv (buildOps ops) := by
  have base : builderCountInv Rcoil.new := rfl
  rw [buildOps]
  generalize hr : Rcoil.new = r0
  rw [hr] at base
  clear hr
  induction ops generalizing r0 with
  | nil => exact base
  | cons op ops ih =>
    rw [List.foldl_cons]
    exact ih (applyOp r0 op) (applyOp_count r0 op base)

theorem subtreeCount_children (g : RequestGroup) :
    subtreeCount g = 1 + forestCount g.children := by
  cases g with
  | node i rs cs => rw [subtreeCount_node]; rfl

theorem handleGroupDone_inv (s : DirectorRun) (i : Nat) (g : RequestGroup)
    (hg : s.frontier.get? i = some g) (h : DirInv s) :
    DirInv (handleGroupDone s g (s.frontier.eraseIdx i)) := by
  obtain ⟨hab, hcb, hnz, hsum, hend⟩ := h
  have herase := forestCount_erase_get s.frontier i g hg
  have hchild := subtreeCount_children g
  have hlt : s.counter < s.totalGroups := by
    have := subtreeCount_pos g
    omega
  have hend0 : s.endCalls = 0 := by
    rw [hend, if_neg (by omega)]
  unfold handleGroupDone
  rw [hab]
  simp only [Bool.false_eq_true, if_false]
  set rest := s.frontier.eraseIdx i with hrest
  have hsum1 : s.counter + 1 + forestCount (rest ++ g.children) =
      s.totalGroups := by
    rw [forestCount_append]
    omega
  split
  · next hcond =>
    rw [hcb]
    refine ⟨rfl, rfl, hnz, hsum1, ?_⟩
    show s.endCalls + 1 = if s.counter + 1 = s.totalGroups then 1 else 0
    rw [if_pos hcond.2, hend0]
  · next hcond =>
    refine ⟨rfl, hcb, hnz, hsum1, ?_⟩
    have hne : ¬(s.counter + 1 = s.totalGroups) := by
      intro hctr
      apply hcond
      constructor
      · have hzero : forestCount (rest ++ g.children) = 0 := by omega
        rw [forestCount_append] at hzero
        have hempty : g.children = [] := by
          rw [← forestCount_eq_zero]
          omega
        rw [hempty]
        rfl
      · exact hctr
    show s.endCalls = if s.counter + 1 = s.totalGroups then 1 else 0
    rw [if_neg hne, hend0]

theorem stepRun_inv (s s' : DirectorRun) (e : RunEvent)
    (he : e ≠ RunEvent.abortCalled) (h : DirInv s)
    (hs : stepRun s e = some s') : DirInv s' := by
  cases e with
  | groupDone i =>
    rw [stepRun] at hs
    cases hg : s.frontier.get? i with
    | none => rw [hg] at hs; exact absurd hs (by simp)
    | some g =>
      rw [hg] at hs
      simp only [Option.some_inj] at hs
      rw [← hs]
      exact handleGroupDone_inv s i g hg h
  | reqStarted g r input =>
    rw [stepRun] at hs
    simp only [Option.some_inj] at hs
    rw [← hs]
    exact h
  | reqDone g r output =>
    rw [stepRun] at hs
    simp only [Option.some_inj] at hs
    rw [← hs]
    exact h
  | reqCanceled g r =>
    rw [stepRun] at hs
    simp only [Option.some_inj] at hs
    rw [← hs]
    exact h
  | abortCalled => exact absurd rfl he

theorem runEvents_inv (events : List RunEvent) (s s' : DirectorRun)
    (h : DirInv s) (hrun : runEvents s events = some s')
    (hnab : hasAbort events = false) : DirInv s' := by
  induction events generalizing s with
  | nil =>
    rw [runEvents] at hrun
    simp only [Option.some_inj] at hrun
    rw [← hrun]
    exact h
  | cons e es ih =>
    rw [runEvents] at hrun
    cases hstep : stepRun s e with
    | none => rw [hstep] at hrun; exact absurd hrun (by simp)
    | some s1 =>
      rw [hstep] at hrun
      have hene : e ≠ RunEvent.abortCalled := by
        intro habort
        rw [habort] at hnab
        rw [hasAbort] at hnab
        exact absurd hnab (by simp)
      have hnab2 : hasAbort es = false := by
        cases e with
        | abortCalled => exact absurd rfl hene
        | groupDone i => exact hnab
        | reqStarted g r input => exact hnab
        | reqDone g r output => exact hnab
        | reqCanceled g r => exact hnab
      exact ih s1 (stepRun_inv s s1 e hene h hstep) hrun hnab2

/-- C3: `startGroup(id)` with an id already anywhere in the tree throws a
configuration error and returns the builder unchanged (no group added,
cursor kept, counter kept); with a fresh id (and a cursor that is empty
or names an existing group) it succeeds, appends a new empty group that
the tree lookup then finds, advances the cursor to the id and increments
the total-group counter. -/
theorem startGroup_validation (r : Rcoil) (gid : String) :
    ((findForest r.calls gid).isSome = true →
      r.startGroup gid = (r, some (BuildError.duplicateGroup gid))) ∧
    (findForest r.calls gid = none →
      (r.tmpPositionId = "" ∨ (findForest r.calls r.tmpPositionId).isSome = true) →
      (r.startGroup gid).2 = none ∧
      (r.startGroup gid).1.tmpPositionId = gid ∧
      (r.startGroup gid).1.totalRequestGroups = r.totalRequestGroups + 1 ∧
      findForest (r.startGroup gid).1.calls gid =
        some (createEmptyRequestGroup gid)) := by
  constructor
  · intro hdup
    unfold Rcoil.startGroup
    split
    · rfl
    · next hno => exact absurd hdup hno
  · intro hnone hcur
    unfold Rcoil.startGroup
    split
    · next hdup => rw [hnone] at hdup; exact absurd hdup (by decide)
    · split
      · next hne =>
        cases hfind : findForest r.calls r.tmpPositionId with
        | none =>
          rcases hcur with hemp | hsome
          · exact absurd hemp hne
          · rw [hfind] at hsome; exact absurd hsome (by decide)
        | some g0 =>
          refine ⟨rfl, rfl, rfl, ?_⟩
          show findForest (pushChildForest r.calls r.tmpPositionId
            (createEmptyRequestGroup gid)).1 gid = some (createEmptyRequestGroup gid)
          have hfound : (pushChildForest r.calls r.tmpPositionId
              (createEmptyRequestGroup gid)).2 = true := by
            rw [pushChildForest_found, hfind]
            rfl
          rw [findForest_pushChildForest_fresh r.calls r.tmpPositionId gid hnone]
          rw [hfound, if_pos rfl]
      · refine ⟨rfl, rfl, rfl, ?_⟩
        show findForest (r.calls ++ [createEmptyRequestGroup gid]) gid =
          some (createEmptyRequestGroup gid)
        rw [findForest_append, hnone]
        simp [findForest, findTree, createEmptyRequestGroup]

/-- C3 witness: a duplicate id fails on a one-group builder; a fresh id is
added under the cursor and found afterwards. -/
theorem startGroup_validation_witness :
    (buildOps [BuilderOp.startGroup "g1"]).startGroup "g1" =
      (buildOps [BuilderOp.startGroup "g1"], some (BuildError.duplicateGroup "g1")) ∧
    ((buildOps [BuilderOp.startGroup "g1"]).startGroup "g2").2 = none ∧
    ((buildOps [BuilderOp.startGroup "g1"]).startGroup "g2").1.tmpPositionId = "g2" ∧
    ((buildOps [BuilderOp.startGroup "g1"]).startGroup "g2").1.totalRequestGroups =
      (buildOps [BuilderOp.startGroup "g1"]).totalRequestGroups + 1 ∧
    findForest ((buildOps [BuilderOp.startGroup "g1"]).startGroup "g2").1.calls "g2" =
      some (createEmptyRequestGroup "g2") := by
  have h1 := (startGroup_validation (buildOps [BuilderOp.startGroup "g1"]) "g1").1 rfl
  have h2 := (startGroup_validation (buildOps [BuilderOp.startGroup "g1"]) "g2").2
    rfl (Or.inr rfl)
  exact ⟨h1, h2.1, h2.2.1, h2.2.2.1, h2.2.2.2⟩

/-- C4: a record written with `setResponseData`/`setRequestData` is
returned by the matching read at the same `(groupId, name)` key, and a key
never written reads back as the absent value `null` (`none`). -/
theorem context_record_round_trip :
    (∀ (c : ExecutionContext) (g n : String) (rec : ResponseRecord),
      (c.setResponseData g n rec).responseData g n = some rec) ∧
    (∀ (c : ExecutionContext) (g n : String) (rec : RequestRecord),
      (c.setRequestData g n rec).requestData g n = some rec) ∧
    (∀ (ws : List (String × String × ResponseRecord)) (g n : String),
      (∀ w ∈ ws, ¬(w.1 = g ∧ w.2.1 = n)) →
      (applyResponseWrites ExecutionContext.new ws).responseData g n = none) ∧
    (∀ (ws : List (String × String × RequestRecord)) (g n : String),
      (∀ w ∈ ws, ¬(w.1 = g ∧ w.2.1 = n)) →
      (applyRequestWrites ExecutionContext.new ws).requestData g n = none) := by
  refine ⟨responseData_set_same, requestData_set_same, ?_, ?_⟩
  · intro ws g n h
    rw [applyResponseWrites_miss ws ExecutionContext.new g n h]
    rfl
  · intro ws g n h
    rw [applyRequestWrites_miss ws ExecutionContext.new g n h]
    rfl

/-- C4 witness: a concrete write is read back, and a key not among the
writes reads as absent. -/
theorem context_record_round_trip_witness :
    ((ExecutionContext.new.setResponseData "g" "n" canceledResponse).responseData
      "g" "n" = some canceledResponse) ∧
    ((applyResponseWrites ExecutionContext.new
      [("a", "b", canceledResponse)]).responseData "g" "n" = none) := by
  refine ⟨context_record_round_trip.1 ExecutionContext.new "g" "n" canceledResponse, ?_⟩
  exact context_record_round_trip.2.2.1 [("a", "b", canceledResponse)] "g" "n" (by decide)

/-- C5: evaluating the code at the failing input.  After
`registerActiveRequest(r)` on a fresh context, `getActiveRequest(r.name)`
does not return the request (it is always `null`), `getActiveRequests()`
does not contain it (the list is empty), and the active-groups snapshot
HAS changed (the request was pushed into the active-groups array),
contradicting the claim on all three counts. -/
theorem registerActiveRequest_misregisters :
    ((ExecutionContext.new.registerActiveRequest c5request).getActiveRequest
      "r1" = none) ∧
    ((ExecutionContext.new.registerActiveRequest c5request).getActiveRequests
      = []) ∧
    ((ExecutionContext.new.registerActiveRequest c5request).getActiveGroups.length
      = 1) ∧
    (ExecutionContext.new.getActiveGroups.length = 0) :=
  ⟨rfl, rfl, rfl, rfl⟩

/-- C7: `addRequest` throws a configuration error on an empty cursor or a
non-`Request` argument, returning the builder unchanged; otherwise it
appends the request to the request list of the group at the cursor. -/
theorem addRequest_validation (r : Rcoil) (v : RcoilValue) :
    (r.tmpPositionId = "" →
      r.addRequest v = (r, some BuildError.addRequestWithoutGroup)) ∧
    (r.tmpPositionId ≠ "" → v = RcoilValue.notRequest →
      r.addRequest v = (r, some BuildError.invalidRequestObject)) ∧
    (∀ (q : Request) (i : String) (rs : List Request) (cs : List RequestGroup),
      v = RcoilValue.req q → r.tmpPositionId ≠ "" →
      findForest r.calls r.tmpPositionId = some (RequestGroup.node i rs cs) →
      (r.addRequest v).2 = none ∧
      (r.addRequest v).1.tmpPositionId = r.tmpPositionId ∧
      findForest (r.addRequest v).1.calls r.tmpPositionId =
        some (RequestGroup.node i (rs ++ [q]) cs)) := by
  refine ⟨?_, ?_, ?_⟩
  · intro hemp
    unfold Rcoil.addRequest
    split
    · rfl
    · next hne => exact absurd hemp hne
  · intro hne hv
    subst hv
    unfold Rcoil.addRequest
    split
    · next hemp => exact absurd hemp hne
    · rfl
  · intro q i rs cs hv hne hfind
    subst hv
    unfold Rcoil.addRequest
    split
    · next hemp => exact absurd hemp hne
    · rw [hfind]
      refine ⟨rfl, rfl, ?_⟩
      show findForest (pushRequestForest r.calls r.tmpPositionId q).1
        r.tmpPositionId = some (RequestGroup.node i (rs ++ [q]) cs)
      exact findForest_pushRequestForest r.calls r.tmpPositionId q i rs cs hfind

/-- C7 witness: the three behaviors at concrete builders. -/
theorem addRequest_validation_witness :
    (Rcoil.new.addRequest (RcoilValue.req c5request) =
      (Rcoil.new, some BuildError.addRequestWithoutGroup)) ∧
    ((buildOps [BuilderOp.startGroup "g1"]).addRequest RcoilValue.notRequest =
      (buildOps [BuilderOp.startGroup "g1"], some BuildError.invalidRequestObject)) ∧
    (((buildOps [BuilderOp.startGroup "g1"]).addRequest
      (RcoilValue.req c5request)).2 = none) ∧
    (findForest ((buildOps [BuilderOp.startGroup "g1"]).addRequest
        (RcoilValue.req c5request)).1.calls "g1" =
      some (RequestGroup.node "g1" [c5request] [])) := by
  have h1 := (addRequest_validation Rcoil.new (RcoilValue.req c5request)).1 rfl
  have h2 := (addRequest_validation (buildOps [BuilderOp.startGroup "g1"])
    RcoilValue.notRequest).2.1 (by decide) rfl
  have h3 := (addRequest_validation (buildOps [BuilderOp.startGroup "g1"])
    (RcoilValue.req c5request)).2.2 c5request "g1" [] [] rfl (by decide) rfl
  exact ⟨h1, h2, h3.1, h3.2.2⟩

/-- C9 counterexample: with the cursor reset by `afterGroup` to an id that
names no group, a subsequent `addRequest` does not silently target the
missing group — it throws (the `null` returned by `_findRequestGroup` is
dereferenced for `.requests.push`), leaving the builder unchanged. -/
theorem afterGroup_then_addRequest_throws :
    c9coil.addRequest (RcoilValue.req c9request) =
      (c9coil, some BuildError.nullDereference) := rfl

/-- C9 (amended): `afterGroup(id)` resets the cursor to `id` without
validating that such a group exists (tree and counter untouched); a
subsequent `addRequest` with the cursor at a not-found group fails with a
runtime null-dereference TypeError — not a configuration error, and not a
silent success — leaving the builder unchanged. -/
theorem afterGroup_no_validation (r : Rcoil) (gid : String) (q : Request) :
    ((r.afterGroup gid).tmpPositionId = gid ∧
      (r.afterGroup gid).calls = r.calls ∧
      (r.afterGroup gid).totalRequestGroups = r.totalRequestGroups) ∧
    (gid ≠ "" → findForest r.calls gid = none →
      (r.afterGroup gid).addRequest (RcoilValue.req q) =
        (r.afterGroup gid, some BuildError.nullDereference)) := by
  refine ⟨⟨rfl, rfl, rfl⟩, ?_⟩
  intro hne hnone
  unfold Rcoil.addRequest
  split
  · next hemp =>
    exact absurd hemp hne
  · show (match findForest (r.afterGroup gid).calls (r.afterGroup gid).tmpPositionId with
      | none => ((r.afterGroup gid), some BuildError.nullDereference)
      | some _ => ({ r.afterGroup gid with calls := (pushRequestForest (r.afterGroup gid).calls (r.afterGroup gid).tmpPositionId q).1 }, none)) =
      ((r.afterGroup gid), some BuildError.nullDereference)
    have : findForest (r.afterGroup gid).calls (r.afterGroup gid).tmpPositionId = none := hnone
    rw [this]

/-- C9 witness: the amended behavior at a concrete builder. -/
theorem afterGroup_no_validation_witness :
    (c9coil.tmpPositionId = "missing" ∧
      c9coil.calls = (buildOps [BuilderOp.startGroup "g1"]).calls ∧
      c9coil.totalRequestGroups =
        (buildOps [BuilderOp.startGroup "g1"]).totalRequestGroups) ∧
    (c9coil.addRequest (RcoilValue.req c9request) =
      (c9coil, some BuildError.nullDereference)) := by
  have h := afterGroup_no_validation (buildOps [BuilderOp.startGroup "g1"])
    "missing" c9request
  exact ⟨h.1, h.2 (by decide) rfl⟩

/-- C10: no builder operation enforces request-name uniqueness inside a
group — `addRequest` succeeds even when the cursor group already holds a
request with the same name — and a second `setRequestData` or
`setResponseData` at the same `(groupId, name)` key replaces the first
record. -/
theorem duplicate_request_names_unchecked (r : Rcoil) (q : Request)
    (i : String) (rs : List Request) (cs : List RequestGroup) :
    (r.tmpPositionId ≠ "" →
      findForest r.calls r.tmpPositionId = some (RequestGroup.node i rs cs) →
      q.name ∈ rs.map Request.name →
      (r.addRequest (RcoilValue.req q)).2 = none ∧
      findForest (r.addRequest (RcoilValue.req q)).1.calls r.tmpPositionId =
        some (RequestGroup.node i (rs ++ [q]) cs)) ∧
    (∀ (c : ExecutionContext) (g n : String) (a b : RequestRecord),
      ((c.setRequestData g n a).setRequestData g n b).requestData g n = some b) ∧
    (∀ (c : ExecutionContext) (g n : String) (a b : ResponseRecord),
      ((c.setResponseData g n a).setResponseData g n b).responseData g n
        = some b) := by
  refine ⟨?_, ?_, ?_⟩
  · intro hne hfind _hdup
    unfold Rcoil.addRequest
    split
    · next hemp => exact absurd hemp hne
    · rw [hfind]
      exact ⟨rfl, findForest_pushRequestForest r.calls r.tmpPositionId q i rs cs hfind⟩
  · intro c g n a b
    exact requestData_set_same (c.setRequestData g n a) g n b
  · intro c g n a b
    exact responseData_set_same (c.setResponseData g n a) g n b

/-- C10 witness: adding a second request named `r1` to a group already
holding one succeeds, and a repeated write at one key returns the second
record. -/
theorem duplicate_request_names_unchecked_witness :
    (((buildOps [BuilderOp.startGroup "g1",
        BuilderOp.addRequest (RcoilValue.req c5request)]).addRequest
      (RcoilValue.req c5request)).2 = none) ∧
    ((ExecutionContext.new.setResponseData "g" "n"
        (mkResponseRecord none)).setResponseData "g" "n"
        canceledResponse).responseData "g" "n" = some canceledResponse := by
  have h := duplicate_request_names_unchecked
    (buildOps [BuilderOp.startGroup "g1",
      BuilderOp.addRequest (RcoilValue.req c5request)]) c5request
    "g1" [c5request] []
  refine ⟨(h.1 (by decide) rfl (by decide)).1, ?_⟩
  exact h.2.2 ExecutionContext.new "g" "n" (mkResponseRecord none) canceledResponse

/-- C8: the GET factory on `"http://api.com/test"` (with the url library
behaving as node's does on that input) yields a request whose settings
carry host `api.com`, method `GET`, protocol `http:` and path `/test`; on
a string the url validator rejects, it throws; on a config object missing
any of host, path, protocol or method, it throws. -/
theorem get_factory_validation (lib : UrlLib)
    (hIs : lib.isUri apiUrl = true) (hParse : lib.parse apiUrl = apiParsed) :
    (Request.get lib "n" (Sum.inr apiUrl) = Except.ok
      { type := RequestType.HTTP, name := "n",
        settings := Settings.http apiSettings, inputFunc := none }) ∧
    (∀ s, lib.isUri s = false →
      Request.get lib "n" (Sum.inr s) =
        Except.error (RequestError.invalidUrl s)) ∧
    (∀ c : ConfigObject,
      c.host = none ∨ c.path = none ∨ c.protocol = none ∨ c.method = none →
      Request.get lib "n" (Sum.inl c) =
        Except.error RequestError.invalidConfiguration) := by
  refine ⟨?_, ?_, ?_⟩
  · unfold Request.get Request.setGet Request.setHttpRequest createHttpRequest
    dsimp only
    rw [hIs]
    simp only [Bool.true_eq_false, if_false]
    rw [hParse]
    simp [Except.map, apiParsed, apiSettings, Request.new]
    decide
  · intro s hbad
    unfold Request.get Request.setGet Request.setHttpRequest createHttpRequest
    dsimp only
    rw [hbad]
    rfl
  · intro c hmiss
    unfold Request.get Request.setGet Request.setHttpRequest createHttpRequest
    have hcond : c.host.isNone = true ∨ c.path.isNone = true ∨
        c.protocol.isNone = true ∨ c.method.isNone = true := by
      rcases hmiss with h | h | h | h <;> rw [h] <;> simp
    dsimp only
    rw [if_pos hcond]
    rfl

/-- C8 witness: the factory behaviors at the concrete url library. -/
theorem get_factory_validation_witness :
    (Request.get apiLib "n" (Sum.inr apiUrl) = Except.ok
      { type := RequestType.HTTP, name := "n",
        settings := Settings.http apiSettings, inputFunc := none }) ∧
    (Request.get apiLib "n" (Sum.inr "not a url") =
      Except.error (RequestError.invalidUrl "not a url")) ∧
    (Request.get apiLib "n" (Sum.inl
        { host := some "api.com", path := none, port := none,
          protocol := none, method := some "GET" }) =
      Except.error RequestError.invalidConfiguration) := by
  have h := get_factory_validation apiLib (by decide) rfl
  exact ⟨h.1, h.2.1 "not a url" (by decide),
    h.2.2 _ (Or.inr (Or.inl rfl))⟩

/-- C6: a request whose input callback signals cancellation dispatches no
transport call, stores a response record with `isCanceled = true` under
`(groupId, request name)` in the shared context, and still fires a
`requestEnd` event for that request. -/
theorem canceled_request_behavior (s : DirectorRun) (g : RequestGroup)
    (r : Request) (h : r.inputFunc = some InputOutcome.cancel)
    (transportOutput : Option String) :
    (requestPlayerEvents g r transportOutput).2 = 0 ∧
    ∃ s1, runEvents s (requestPlayerEvents g r transportOutput).1 = some s1 ∧
      s1.ctx.responseData g.id r.name = some canceledResponse ∧
      canceledResponse.isCanceled = true ∧
      s1.requestEndEvents = s.requestEndEvents ++ [(g.id, r.name)] := by
  rw [requestPlayerEvents, h]
  refine ⟨rfl, ?_⟩
  refine ⟨_, rfl, ?_, rfl, rfl⟩
  exact responseData_set_same (s.ctx.unregisterActiveRequests r) g.id r.name
    canceledResponse

/-- C6 witness: the canceled-request behavior at a concrete run state. -/
theorem canceled_request_behavior_witness :
    (requestPlayerEvents c6group c6request none).2 = 0 ∧
    (runEvents (directorStart Rcoil.new true)
        (requestPlayerEvents c6group c6request none).1).map
      (fun s => s.ctx.responseData c6group.id c6request.name) =
      some (some canceledResponse) ∧
    (runEvents (directorStart Rcoil.new true)
        (requestPlayerEvents c6group c6request none).1).map
      DirectorRun.requestEndEvents = some [("g6", "r6")] := by
  obtain ⟨h0, s1, hrun, hresp, _hcan, hends⟩ :=
    canceled_request_behavior (directorStart Rcoil.new true) c6group c6request
      rfl none
  refine ⟨h0, ?_, ?_⟩
  · rw [hrun]
    simp only [Option.map_some']
    rw [hresp]
  · rw [hrun]
    simp only [Option.map_some']
    rw [hends]
    rfl

theorem handleGroupDone_endCalls (t : DirectorRun) (g : RequestGroup)
    (rest : List RequestGroup) :
    ((handleGroupDone t g rest).endCalls = t.endCalls + 1 ∧
      t.aborted = false ∧ g.children.length = 0 ∧
      t.counter + 1 = t.totalGroups ∧ t.hasCallback = true) ∨
    (handleGroupDone t g rest).endCalls = t.endCalls := by
  simp only [handleGroupDone]
  by_cases h1 : t.aborted
  · simp only [h1, if_true]
    by_cases h2 : ((t.ctx.unregisterActiveGroup g).getActiveRequests).length = 0
    · simp [h2]
    · simp [h2]
  · simp only [h1, Bool.false_eq_true, if_false]
    by_cases h2 : g.children.length = 0 ∧ t.counter + 1 = t.totalGroups
    · by_cases h3 : t.hasCallback
      · left
        refine ⟨?_, by simpa using h1, h2.1, h2.2, h3⟩
        rw [if_pos h2]
        simp [h3]
      · right
        rw [if_pos h2]
        simp [h3]
    · right
      rw [if_neg h2]

/-- C1 counterexample: for the empty built tree (zero `startGroup` calls)
`start(callback)` launches no group player, the run is already complete
(no pending player), and the completion callback has fired zero times —
not exactly once. -/
theorem completion_callback_empty_tree_never_fires :
    runEvents (directorStart (buildOps []) true) [] =
      some (directorStart (buildOps []) true) ∧
    (directorStart (buildOps []) true).frontier = [] ∧
    (directorStart (buildOps []) true).endCalls = 0 :=
  ⟨rfl, rfl, rfl⟩

/-- C1 (amended): for every tree built through the builder that contains
at least one group, along every abort-free run the completion callback
passed to `start()` has fired exactly once when every group player has
delivered its end event (at which point the completed-group counter equals
the captured total), and zero times while any player is still pending;
moreover a group-end changes the callback-invocation count only when the
ended group has no children and the incremented counter equals the total —
a condition only a leaf group can satisfy. -/
theorem completion_callback_exactly_once (ops : List BuilderOp)
    (events : List RunEvent) (s : DirectorRun)
    (hne : (buildOps ops).requestGroupsCount ≠ 0)
    (hrun : runEvents (directorStart (buildOps ops) true) events = some s)
    (hnab : hasAbort events = false) :
    (s.frontier = [] → s.endCalls = 1 ∧ s.counter = s.totalGroups) ∧
    (s.frontier ≠ [] → s.endCalls = 0) ∧
    (∀ (t : DirectorRun) (g : RequestGroup) (rest : List RequestGroup),
      (handleGroupDone t g rest).endCalls ≠ t.endCalls →
      g.children = [] ∧ t.counter + 1 = t.totalGroups) := by
  have hinv0 : DirInv (directorStart (buildOps ops) true) := by
    have hc := buildOps_count ops
    refine ⟨rfl, rfl, hne, ?_, ?_⟩
    · show 0 + forestCount (buildOps ops).calls =
        (buildOps ops).requestGroupsCount
      rw [builderCountInv] at hc
      show 0 + forestCount (buildOps ops).calls =
        (buildOps ops).totalRequestGroups
      omega
    · show 0 = if 0 = (buildOps ops).requestGroupsCount then 1 else 0
      rw [if_neg (fun hx => hne hx.symm)]
  have hinv := runEvents_inv events _ s hinv0 hrun hnab
  obtain ⟨hab, hcb, hnz, hsum, hend⟩ := hinv
  refine ⟨?_, ?_, ?_⟩
  · intro hf
    rw [hf] at hsum
    simp only [forestCount] at hsum
    have hcount : s.counter = s.totalGroups := by omega
    exact ⟨by rw [hend, if_pos hcount], hcount⟩
  · intro hf
    have hpos : 0 < forestCount s.frontier := by
      cases hfr : s.frontier with
      | nil => exact absurd hfr hf
      | cons t ts =>
        rw [forestCount]
        have := subtreeCount_pos t
        omega
    rw [hend, if_neg (by omega)]
  · intro t g rest hchange
    rcases handleGroupDone_endCalls t g rest with ⟨_, _, hleaf, hctr, _⟩ | hsame
    · exact ⟨List.length_eq_zero.mp hleaf, hctr⟩
    · exact absurd hsame hchange

/-- C1 witness: a one-group tree, run to completion by its single
group-end event: the callback fired exactly once. -/
theorem completion_callback_exactly_once_witness :
    (runEvents (directorStart (buildOps [BuilderOp.startGroup "g1"]) true)
      [RunEvent.groupDone 0]).map DirectorRun.endCalls = some 1 := by
  cases hrun : runEvents (directorStart (buildOps [BuilderOp.startGroup "g1"])
    true) [RunEvent.groupDone 0] with
  | none =>
    have hs : (runEvents (directorStart (buildOps [BuilderOp.startGroup "g1"])
      true) [RunEvent.groupDone 0]).isSome = true := rfl
    rw [hrun] at hs
    exact absurd hs (by decide)
  | some s =>
    have hmap := congrArg (Option.map DirectorRun.frontier) hrun
    rw [show (runEvents (directorStart (buildOps [BuilderOp.startGroup "g1"])
      true) [RunEvent.groupDone 0]).map DirectorRun.frontier =
      some ([] : List RequestGroup) from rfl] at hmap
    simp only [Option.map_some', Option.some_inj] at hmap
    have h := completion_callback_exactly_once [BuilderOp.startGroup "g1"]
      [RunEvent.groupDone 0] s (by decide) hrun rfl
    have hone : s.endCalls = 1 := (h.1 hmap.symm).1
    simp only [Option.map_some', Option.some_inj]
    exact hone

/-- C2: evaluating the director at a run in which `abort()` is called
while a request is still in flight.  The trace contains no
request-completion event, yet at the very next group end the `abort`
event fires (`abortEvents = 1`): `registerActiveRequest` pushed the
request into the active-groups array, so `getActiveRequests()` — read by
`_isAborted` to decide whether all active requests have drained — is
empty even though the started request never completed; the request is
still sitting in the active-groups snapshot instead.  The claim that the
abort event fires only once every currently active request has drained is
therefore violated by the code.  (The group-end suppression half of the
claim does hold on this trace: no `groupEnd` event was emitted.) -/
theorem abort_event_fires_with_request_in_flight :
    c2events.any completesRequest = false ∧
    (runEvents (directorStart c2coil true) c2events).map
      DirectorRun.abortEvents = some 1 ∧
    (runEvents (directorStart c2coil true) c2events).map
      (fun s => s.ctx.getActiveRequests) = some [] ∧
    (runEvents (directorStart c2coil true) c2events).map
      (fun s => s.ctx.getActiveGroups.length) = some 1 ∧
    (runEvents (directorStart c2coil true) c2events).map
      DirectorRun.groupEndEvents = some [] ∧
    (runEvents (directorStart c2coil true) c2events).map
      DirectorRun.requestEndEvents = some [] :=
  ⟨rfl, rfl, rfl, rfl, rfl, rfl⟩
